import Mathlib

/-!
Verification of the scripted timeline playback engine of the aegis repository.

The definitions below are a shallow embedding of the mockup components that
implement the playback pattern:

* `src/site/src/components/developers/AnimatedDbDemo.tsx` — the database-viewer
  demo: its `AnimationStep` data, `animationSequence`, the `runAnimation` loop
  inside the mount effect, the interaction handlers (`handleToggle`,
  `handleSelect`), and the loop/reset logic.
* the terminal-typing demo (`InteractiveTerminal`): its `Phase` state machine
  and the timers each phase schedules.

JavaScript numbers used as integers are embedded as `Nat`/`Int`; JS strings as
`String` (a JS string is its sequence of UTF-16 units; the demo data is ASCII,
so `String`/`List Char` is an exact model); a JS `Set` kept for membership tests
is a duplicate-free `List` in insertion order; `undefined`-able values are
`Option`.  Timers are modelled by a virtual clock in milliseconds threaded
through the execution, and every handler dispatch is recorded in a trace.
-/

/-- Model of the `clickIndicator` state: `{ x, y, visible }`, coordinates in
percent of the container. -/
structure ClickIndicator where
  x : Int
  y : Int
  visible : Bool
deriving DecidableEq, Repr

/-- The `type` field of a `SchemaNode` in `AnimatedDbDemo.tsx`
(`"schema" | "table" | "view" | "column"`). -/
inductive NodeType where
  | schema
  | table
  | view
  | column
deriving DecidableEq, Repr

/-- A node of the mock schema tree (`interface SchemaNode`).  The display-only
`metadata` fields (dataType, rowCount, isPK, isFK, nullable) are not modelled:
no control flow of the demo reads them. -/
inductive SchemaNode where
  | mk (name : String) (type : NodeType) (children : List SchemaNode)

def SchemaNode.name : SchemaNode → String
  | .mk n _ _ => n

def SchemaNode.type : SchemaNode → NodeType
  | .mk _ t _ => t

def SchemaNode.children : SchemaNode → List SchemaNode
  | .mk _ _ c => c

/-- The `mockSchema` constant of `AnimatedDbDemo.tsx` (names, node types and
tree shape transcribed in full; display metadata elided). -/
def mockSchema : List SchemaNode :=
  [ .mk "public" .schema
      [ .mk "users" .table
          [ .mk "id" .column [], .mk "email" .column [], .mk "name" .column [],
            .mk "created_at" .column [], .mk "status" .column [] ],
        .mk "orders" .table
          [ .mk "id" .column [], .mk "user_id" .column [], .mk "total" .column [],
            .mk "status" .column [], .mk "created_at" .column [] ],
        .mk "products" .table
          [ .mk "id" .column [], .mk "name" .column [], .mk "price" .column [],
            .mk "category_id" .column [] ],
        .mk "active_users" .view
          [ .mk "id" .column [], .mk "email" .column [], .mk "name" .column [] ] ] ]

/-- `mockSchema[0].children`, the list the demo searches with
`find((t) => t.name === step.target)`. -/
def publicSchemaChildren : List SchemaNode :=
  (mockSchema.headD (.mk "" .schema [])).children

/-- One row of `mockResults`. -/
structure ResultRow where
  id : Nat
  name : String
  email : String
  status : String

/-- The `mockResults` constant. -/
def mockResults : List ResultRow :=
  [ { id := 1, name := "Alice Johnson", email := "alice@example.com", status := "active" },
    { id := 2, name := "Bob Smith", email := "bob@example.com", status := "active" },
    { id := 3, name := "Carol White", email := "carol@example.com", status := "active" },
    { id := 4, name := "David Brown", email := "david@example.com", status := "active" },
    { id := 5, name := "Eve Davis", email := "eve@example.com", status := "active" } ]

/-- The visible state of the `AnimatedDbDemo` surface: one field per `useState`
hook of the component (except `isAnimating`, which lives in `HostState`).
`executionTime` (a JS float, only ever displayed) is stored in tenths of a
millisecond so that the shown value 23.4 becomes 234. -/
structure DbState where
  expandedNodes : List String
  selectedNode : Option String
  selectedTable : Option SchemaNode
  query : String
  isRunning : Bool
  results : List ResultRow
  executionTime : Option Nat
  animationStep : Nat
  clickIndicator : ClickIndicator
  expandedRowIndex : Option Int

/-- The initial values of the `useState` hooks. -/
def initialState : DbState :=
  { expandedNodes := []
    selectedNode := none
    selectedTable := none
    query := ""
    isRunning := false
    results := []
    executionTime := none
    animationStep := 0
    clickIndicator := { x := 0, y := 0, visible := false }
    expandedRowIndex := none }

/-- One step of the scripted animation (`interface AnimationStep`).  The
`action` field is a string, as the JS value is at runtime; the recognised
actions are listed in `knownActions`. -/
structure AnimationStep where
  action : String
  target : Option String := none
  delay : Nat
  clickX : Option Int := none
  clickY : Option Int := none

/-- Default used only for out-of-range `List.getD` reads in theorem
statements. -/
def defaultStep : AnimationStep := { action := "wait", delay := 0 }

/-- The `animationSequence` constant of `AnimatedDbDemo.tsx`, transcribed
step by step. -/
def animationSequence : List AnimationStep :=
  [ { action := "wait", delay := 500 },
    { action := "click", delay := 400, clickX := some 10, clickY := some 20 },
    { action := "expand", target := some "public", delay := 300 },
    { action := "wait", delay := 200 },
    { action := "click", delay := 400, clickX := some 12, clickY := some 25 },
    { action := "selectTable", target := some "users", delay := 400 },
    { action := "wait", delay := 600 },
    { action := "click", delay := 400, clickX := some 5, clickY := some 25 },
    { action := "expand", target := some "users", delay := 300 },
    { action := "wait", delay := 400 },
    { action := "click", delay := 400, clickX := some 14, clickY := some 35 },
    { action := "select", target := some "users/email", delay := 300 },
    { action := "wait", delay := 800 },
    { action := "type", delay := 50 },
    { action := "wait", delay := 300 },
    { action := "click", delay := 400, clickX := some 52, clickY := some 12 },
    { action := "run", delay := 500 },
    { action := "showResults", delay := 100 },
    { action := "wait", delay := 1500 },
    { action := "click", delay := 400, clickX := some 65, clickY := some 60 },
    { action := "expandRow", target := some "2", delay := 100 },
    { action := "wait", delay := 3000 } ]

/-- The `targetQuery` constant (the SQL text typed character by character). -/
def targetQuery : String :=
  "SELECT id, name, email, status\nFROM users\nWHERE status = \x27active\x27\nORDER BY created_at DESC\nLIMIT 10;"

/-- JS `text.slice(0, j)`: the first `j` characters of `text`. -/
def jsSlice (s : String) (j : Nat) : String := ⟨s.data.take j⟩

/-- The successive values written to the query buffer by the `"type"` case:
`for (let j = 0; j <= targetQuery.length; j++) setQuery(targetQuery.slice(0, j))`
writes the slices for `j = 0 … length`, in that order. -/
def typeWrites (text : String) : List String :=
  (List.range (text.length + 1)).map (fun j => jsSlice text j)

/-- The execution time published by `showResults` (23.4 ms, in tenths). -/
def executionTimeShown : Nat := 234

/-- The recognised `action` kinds of the `switch` in `runAnimation` (the
members of the `AnimationStep["action"]` union type). -/
def knownActions : List String :=
  ["click", "expand", "selectTable", "select", "type", "run", "showResults",
   "expandRow", "wait"]

/-- The body of the `switch (step.action)` in `runAnimation`: the synchronous
mutations one step dispatch performs on the visible state.  A `switch` on a
string with no matching case (and no `default`) falls through with no effect,
so an unrecognised action returns the state unchanged.  The 600 ms auto-hide
of the click indicator is a separately scheduled callback, modelled by
`hideClickIndicator` below.  The `"type"` case performs the per-character
sub-loop whose successive writes are `typeWrites targetQuery`; the buffer ends
at the last of those writes. -/
def executeAction (s : DbState) (step : AnimationStep) : DbState :=
  if step.action = "click" then
    match step.clickX, step.clickY with
    | some x, some y => { s with clickIndicator := { x := x, y := y, visible := true } }
    | _, _ => s
  else if step.action = "expand" then
    -- `new Set([...prev, step.target!])`: adds the target if absent.  A step
    -- authored without a target would add `undefined` to the Set, which no
    -- node name ever matches; on the string set this is the identity.
    match step.target with
    | some t =>
        { s with expandedNodes :=
            if t ∈ s.expandedNodes then s.expandedNodes else s.expandedNodes ++ [t] }
    | none => s
  else if step.action = "selectTable" then
    match step.target with
    | some tgt =>
        match publicSchemaChildren.find? (fun n => n.name == tgt) with
        | some table => { s with selectedTable := some table, selectedNode := some tgt }
        | none => s
    | none => s
  else if step.action = "select" then
    -- `setSelectedNode(step.target!)`: stores the target as given (an absent
    -- target would store `undefined`, i.e. `none`).
    { s with selectedNode := step.target }
  else if step.action = "type" then
    { s with query := (typeWrites targetQuery).getLastD s.query }
  else if step.action = "run" then
    { s with isRunning := true }
  else if step.action = "showResults" then
    { s with isRunning := false, executionTime := some executionTimeShown,
             results := mockResults }
  else if step.action = "expandRow" then
    match step.target with
    | some t => { s with expandedRowIndex := t.toInt? }
    | none => s
  else
    s

/-- One recorded handler dispatch: the virtual time (ms from session start) at
which the `switch` body for step `index` ran, and that step's `action`. -/
structure TraceEntry where
  time : Nat
  index : Nat
  action : String
deriving DecidableEq, Repr

/-- Extra virtual time a step occupies after its handler fires: the `"type"`
case awaits `step.delay` once per written character (`length + 1` writes);
every other case returns immediately. -/
def typingExtra (step : AnimationStep) : Nat :=
  if step.action = "type" then (targetQuery.length + 1) * step.delay else 0

/-- Prepend a trace entry to a run result. -/
def consTrace (e : TraceEntry) (r : Nat × DbState × List TraceEntry) :
    Nat × DbState × List TraceEntry :=
  (r.1, r.2.1, e :: r.2.2)

/-- The `for` loop of `runAnimation`, over a virtual clock.  Per iteration the
source runs: `if (!isAnimating) break; setAnimationStep(i);
await delay(step.delay); switch (step.action) {...}`.

Critically, `isAnimating` here is the `useState` value captured when the
effect closure was created.  The effect has an empty dependency array, so the
closure is created exactly once, from the mount render, where the value is
`true` (see `capturedIsAnimating`); later `setIsAnimating(false)` calls
re-render the component but cannot change this captured binding.  The loop is
therefore parameterised by that captured boolean, not by the live flag. -/
def runAnimationLoop (isAnimatingCaptured : Bool) :
    Nat → Nat → List AnimationStep → DbState → Nat × DbState × List TraceEntry
  | t, _, [], s => (t, s, [])
  | t, i, st :: rest, s =>
    if isAnimatingCaptured then
      consTrace { time := t + st.delay, index := i, action := st.action }
        (runAnimationLoop isAnimatingCaptured (t + st.delay + typingExtra st) (i + 1) rest
          (executeAction { s with animationStep := i } st))
    else (t, s, [])

/-- The virtual times at which each step's handler fires when the run starts
at time `t`: each step waits its own `delay` from the completion of the
previous step (a `"type"` step completes only after its per-character
waits). -/
def stepFireTimes : Nat → List AnimationStep → List Nat
  | _, [] => []
  | t, st :: rest => (t + st.delay) :: stepFireTimes (t + st.delay + typingExtra st) rest

/-- The value of `isAnimating` captured by the mount effect of
`AnimatedDbDemo`: the effect runs once (dependency array `[]`) on the mount
render, where `useState(true)` supplies `true`.  The `if (!isAnimating)`
checks inside `runAnimation` all read this captured binding. -/
def capturedIsAnimating : Bool := true

/-- The playback session the mounted component actually runs: the captured
flag, virtual time 0, step index 0, the authored sequence, the initial
state. -/
def sessionRun : Nat × DbState × List TraceEntry :=
  runAnimationLoop capturedIsAnimating 0 0 animationSequence initialState

/-- The host surface's full state: the visible `DbState` plus the live
`isAnimating` flag. -/
structure HostState where
  db : DbState
  isAnimating : Bool

/-- The cancellation signal: every genuine interaction handler of the surface
(`handleToggle`, `handleSelect`, the Run button, the result-row `onClick`)
begins with `setIsAnimating(false)`. -/
def cancelPlayback (h : HostState) : HostState :=
  { h with isAnimating := false }

/-- State mutation of `handleToggle` on the visible state: toggle `name` in
the expanded set (JS `Set` delete keeps order; add appends). -/
def handleToggleDb (name : String) (db : DbState) : DbState :=
  { db with expandedNodes :=
      if name ∈ db.expandedNodes then db.expandedNodes.erase name
      else db.expandedNodes ++ [name] }

/-- `handleToggle`: `setIsAnimating(false)` then toggle the node. -/
def handleToggle (name : String) (h : HostState) : HostState :=
  { isAnimating := false, db := handleToggleDb name h.db }

/-- State mutation of `handleSelect` on the visible state. -/
def handleSelectDb (name : String) (db : DbState) : DbState :=
  let db1 := { db with selectedNode := some name }
  match publicSchemaChildren.find? (fun n => n.name == name) with
  | some t =>
      if t.type = NodeType.table ∨ t.type = NodeType.view then
        { db1 with selectedTable := some t }
      else db1
  | none => db1

/-- `handleSelect`: `setIsAnimating(false)`, select the node, and select the
table if the name denotes a table or view. -/
def handleSelect (name : String) (h : HostState) : HostState :=
  { isAnimating := false, db := handleSelectDb name h.db }

/-- The reset block run before looping (`// Reset and loop`): each visible
field is set back to its `useState` initial value; `animationStep` is the one
state hook the block does not touch (it is not rendered anywhere and is
overwritten at index 0 as soon as the next run starts). -/
def resetState (_s : DbState) : DbState :=
  { expandedNodes := []
    selectedNode := none
    selectedTable := none
    query := ""
    isRunning := false
    results := []
    executionTime := none
    animationStep := _s.animationStep
    clickIndicator := { x := 0, y := 0, visible := false }
    expandedRowIndex := none }

/-- The fixed pause awaited after a completed session before the reset
(`await new Promise((resolve) => setTimeout(resolve, 2000))`). -/
def loopPauseMs : Nat := 2000

/-- The auto-hide callback for the click indicator:
`setClickIndicator((prev) => ({ ...prev, visible: false }))`. -/
def hideClickIndicator (ind : ClickIndicator) : ClickIndicator :=
  { ind with visible := false }

/-- The fixed duration after which the click indicator auto-hides
(`setTimeout(..., 600)`). -/
def clickAutoHideDelayMs : Nat := 600

/-! ## The terminal-typing demo (`InteractiveTerminal`) -/

/-- One scripted command of the terminal demo (`interface Command`). -/
structure Command where
  cmd : String
  output : List String

/-- The `DEMO_COMMANDS` constant of the terminal demo. -/
def DEMO_COMMANDS : List Command :=
  [ { cmd := "eza -la",
      output := ["drwxr-xr-x  src/", "-rw-r--r--  Cargo.toml",
                 "-rw-r--r--  README.md", "-rw-r--r--  .gitignore"] },
    { cmd := "bat Cargo.toml",
      output := ["[package]", "name = \"aegis-project\"", "version = \"0.1.0\"",
                 "edition = \"2024\""] },
    { cmd := "rg \"fn main\"",
      output := ["src/main.rs:4:fn main() \x7b"] },
    { cmd := "fd .rs",
      output := ["src/main.rs", "src/lib.rs", "src/utils.rs"] },
    { cmd := "cargo build",
      output := ["   Compiling aegis-project v0.1.0",
                 "    Finished dev [unoptimized + debuginfo]"] } ]

/-- The `Phase` union type of the terminal demo's state machine. -/
inductive Phase where
  | typing (cmdIndex charIndex : Nat)
  | executing (cmdIndex outputIndex : Nat)
  | waiting (cmdIndex : Nat)
  | resetting
deriving DecidableEq, Repr

/-- The delays of the `setTimeout` calls made by one run of the terminal's
state-machine effect for the given phase, transcribed branch by branch:

* `typing` with `charIndex <= cmd.length`: one timeout of `50 + random*50` ms
  (the random jitter is the `jitter` parameter);
* `typing` past the end: one timeout of 300 ms (commit the command);
* `executing` with output lines left: one timeout of 80 ms;
* `executing` past the last line: no timeout (`setPhase` runs synchronously);
* `waiting`: one timeout of 1200 ms;
* `resetting`: one timeout of 2000 ms. -/
def scheduledTimeouts (jitter : Nat) : Phase → List Nat
  | .typing ci ch =>
      if ch ≤ (DEMO_COMMANDS.getD ci { cmd := "", output := [] }).cmd.length then
        [50 + jitter]
      else [300]
  | .executing ci oi =>
      if oi < (DEMO_COMMANDS.getD ci { cmd := "", output := [] }).output.length then
        [80]
      else []
  | .waiting _ => [1200]
  | .resetting => [2000]

/-- Pending-timer count after a sequence of effect runs.  The effect's cleanup
(`return () => clearTimeout(timer)`) runs before the next effect body, so each
run first clears whatever was pending and then schedules the timeouts of the
current phase. -/
def pendingAfterRuns (jitter : Nat) : List Phase → Nat → Nat
  | [], pending => pending
  | p :: rest, _ => pendingAfterRuns jitter rest (scheduledTimeouts jitter p).length

/-! ## Helper lemmas -/

theorem runLoop_trace_indices (steps : List AnimationStep) :
    ∀ (t i : Nat) (s : DbState),
      ((runAnimationLoop true t i steps s).2.2).map (fun e => e.index)
        = List.range' i steps.length := by
  induction steps with
  | nil => intro t i s; simp [runAnimationLoop]
  | cons st rest ih =>
      intro t i s
      simp [runAnimationLoop, consTrace, ih, List.range']

theorem runLoop_trace_times (steps : List AnimationStep) :
    ∀ (t i : Nat) (s : DbState),
      ((runAnimationLoop true t i steps s).2.2).map (fun e => e.time)
        = stepFireTimes t steps := by
  induction steps with
  | nil => intro t i s; simp [runAnimationLoop, stepFireTimes]
  | cons st rest ih =>
      intro t i s
      simp [runAnimationLoop, consTrace, ih, stepFireTimes]

theorem runLoop_trace_length (steps : List AnimationStep) :
    ∀ (t i : Nat) (s : DbState),
      ((runAnimationLoop true t i steps s).2.2).length = steps.length := by
  induction steps with
  | nil => intro t i s; simp [runAnimationLoop]
  | cons st rest ih =>
      intro t i s
      simp [runAnimationLoop, consTrace, ih]

theorem runLoop_trace_countP (p : String → Bool) (steps : List AnimationStep) :
    ∀ (t i : Nat) (s : DbState),
      ((runAnimationLoop true t i steps s).2.2).countP (fun e => p e.action)
        = steps.countP (fun st => p st.action) := by
  induction steps with
  | nil => intro t i s; simp [runAnimationLoop]
  | cons st rest ih =>
      intro t i s
      simp [runAnimationLoop, consTrace, List.countP_cons, ih]

theorem stepFireTimes_lower_bound (steps : List AnimationStep) :
    ∀ (t k : Nat), k < steps.length →
      t + (((steps.take (k + 1)).map (fun st => st.delay)).sum)
        ≤ (stepFireTimes t steps).getD k 0 := by
  induction steps with
  | nil => intro t k h; simp at h
  | cons st rest ih =>
      intro t k h
      cases k with
      | zero => simp [stepFireTimes]
      | succ k =>
          have hk : k < rest.length := by simpa using h
          have := ih (t + st.delay + typingExtra st) k hk
          simp only [stepFireTimes, List.take_succ_cons, List.map_cons, List.sum_cons,
            List.getD_cons_succ]
          omega

theorem stepFireTimes_succ (steps : List AnimationStep) :
    ∀ (t k : Nat), k + 1 < steps.length →
      (stepFireTimes t steps).getD (k + 1) 0
        = (stepFireTimes t steps).getD k 0 + typingExtra (steps.getD k defaultStep)
          + (steps.getD (k + 1) defaultStep).delay := by
  induction steps with
  | nil => intro t k h; simp at h
  | cons st rest ih =>
      intro t k h
      cases k with
      | zero =>
          cases rest with
          | nil => simp at h
          | cons st2 rest2 =>
              simp only [stepFireTimes, List.getD_cons_succ, List.getD_cons_zero]
      | succ k =>
          have hk : k + 1 < rest.length := by simpa using h
          simpa [stepFireTimes, List.getD_cons_succ] using
            ih (t + st.delay + typingExtra st) k hk

theorem getD_map_range' (f : Nat → String) :
    ∀ (len start k : Nat), k < len →
      ((List.range' start len).map f).getD k "" = f (start + k) := by
  intro len
  induction len with
  | zero => intro start k h; omega
  | succ n ih =>
      intro start k h
      cases k with
      | zero => simp [List.range']
      | succ k =>
          have := ih (start + 1) k (by omega)
          simp only [List.range', List.map_cons, List.getD_cons_succ]
          rw [this]
          congr 1
          omega

theorem typeWrites_getD (q : String) (k : Nat) (h : k ≤ q.length) :
    (typeWrites q).getD k "" = jsSlice q k := by
  rw [typeWrites, List.range_eq_range']
  rw [getD_map_range' (fun j => jsSlice q j) (q.length + 1) 0 k (by omega)]
  simp

theorem typeWrites_getLastD (q : String) (d : String) :
    (typeWrites q).getLastD d = q := by
  rw [typeWrites, List.range_succ, List.map_append, List.map_cons, List.map_nil,
    List.getLastD_concat]
  show String.mk (q.data.take q.length) = q
  rw [show q.length = q.data.length from rfl, List.take_length]

theorem scheduledTimeouts_length_le_one (jitter : Nat) (p : Phase) :
    (scheduledTimeouts jitter p).length ≤ 1 := by
  cases p with
  | typing ci ch => simp only [scheduledTimeouts]; split <;> simp
  | executing ci oi => simp only [scheduledTimeouts]; split <;> simp
  | waiting ci => simp [scheduledTimeouts]
  | resetting => simp [scheduledTimeouts]

theorem pendingAfterRuns_le_one (jitter : Nat) :
    ∀ (ps : List Phase) (p0 : Nat), p0 ≤ 1 → pendingAfterRuns jitter ps p0 ≤ 1 := by
  intro ps
  induction ps with
  | nil => intro p0 h; simpa [pendingAfterRuns] using h
  | cons p rest ih =>
      intro p0 _
      simp only [pendingAfterRuns]
      exact ih _ (scheduledTimeouts_length_le_one jitter p)

theorem executeAction_unknown (step : AnimationStep)
    (h : step.action ∉ knownActions) (s : DbState) : executeAction s step = s := by
  simp only [knownActions, List.mem_cons, List.not_mem_nil, or_false, not_or] at h
  obtain ⟨h1, h2, h3, h4, h5, h6, h7, h8, h9⟩ := h
  simp [executeAction, h1, h2, h3, h4, h5, h6, h7, h8]

/-! ## Claim theorems -/

/-- C1: the claim says that once the interaction handler sets the animating
flag false, no further mutation callback runs for the session.  The handler
does set the live flag false (first conjunct), but every cancellation check
inside `runAnimation` reads the binding captured by the mount effect (empty
dependency array), which is `true` forever (second conjunct); so with
cancellation requested at virtual time 1300 ms — during the delay of step 3 —
the pending click step at index 4 still dispatches at 1800 ms, and so does
every later step (third conjunct).  This refutes the claim on the code as
written; the dead checks show the claim matches the code's intent. -/
theorem c1_cancel_requested_but_mutations_continue :
    ∀ (h : HostState) (name : String),
      (handleToggle name h).isAnimating = false ∧
      capturedIsAnimating = true ∧
      ({ time := 1800, index := 4, action := "click" } : TraceEntry) ∈ sessionRun.2.2 :=
  fun _ _ => ⟨rfl, rfl, by decide⟩

/-- C2: the claim says a manual interaction is terminal — no later scripted
step mutates the visible state afterwards.  `handleSelect` does set the live
flag false, but the running loop never observes it: with a manual interaction
at virtual time 2500 ms (after the `selectTable` effect at 2200 ms), the
scripted `select` step at index 11 still fires at 4600 ms and the session ends
with `selectedNode = "users/email"`, a scripted mutation applied after the
manual interaction. -/
theorem c2_scripted_mutation_after_manual_interaction :
    ∀ (h : HostState) (name : String),
      (handleSelect name h).isAnimating = false ∧
      ({ time := 4600, index := 11, action := "select" } : TraceEntry) ∈ sessionRun.2.2 ∧
      sessionRun.2.1.selectedNode = some "users/email" :=
  fun _ _ => ⟨rfl, by decide, by decide⟩

/-- C3: for a typed-text step with target string `q` of length `N`, an
uncancelled playback writes exactly `N + 1` buffer states, in order from the
empty string (index 0) through the full string (index `N`), state `k` being
the first `k` characters of `q`, each state one character longer than the
previous; and the `"type"` case of the dispatcher leaves the query buffer at
the last of those states, the full `targetQuery`. -/
theorem c3_typed_text_buffer_states :
    ∀ (q : String),
      (typeWrites q).length = q.length + 1 ∧
      (typeWrites q).getD 0 "" = "" ∧
      (typeWrites q).getD q.length "" = q ∧
      (∀ k, k ≤ q.length → ((typeWrites q).getD k "").data = q.data.take k) ∧
      (∀ k, k < q.length →
        ((typeWrites q).getD (k + 1) "").data.take k = ((typeWrites q).getD k "").data ∧
        ((typeWrites q).getD (k + 1) "").data.length
          = ((typeWrites q).getD k "").data.length + 1) ∧
      (∀ s : DbState,
        (executeAction s { action := "type", delay := 50 }).query = targetQuery) := by
  intro q
  refine ⟨by simp [typeWrites], ?_, ?_, ?_, ?_, ?_⟩
  · rw [typeWrites_getD q 0 (Nat.zero_le _)]; rfl
  · rw [typeWrites_getD q q.length (le_refl _)]
    show String.mk (q.data.take q.length) = q
    rw [show q.length = q.data.length from rfl, List.take_length]
  · intro k hk
    rw [typeWrites_getD q k hk]
    rfl
  · intro k hk
    have hk2 : k < q.data.length := hk
    rw [typeWrites_getD q (k + 1) (by omega), typeWrites_getD q k (le_of_lt hk)]
    constructor
    · show (q.data.take (k + 1)).take k = q.data.take k
      rw [List.take_take]
      congr 1
      omega
    · show (q.data.take (k + 1)).length = (q.data.take k).length + 1
      rw [List.length_take, List.length_take]
      omega
  · intro s
    show (typeWrites targetQuery).getLastD s.query = targetQuery
    exact typeWrites_getLastD targetQuery s.query

/-- Witness for C3, at the program's own target string. -/
theorem c3_typed_text_buffer_states_witness :
    ((typeWrites targetQuery).getD 3 "").data = targetQuery.data.take 3 ∧
    ((typeWrites targetQuery).getD 4 "").data.length
      = ((typeWrites targetQuery).getD 3 "").data.length + 1 :=
  ⟨(c3_typed_text_buffer_states targetQuery).2.2.2.1 3 (by decide),
   ((c3_typed_text_buffer_states targetQuery).2.2.2.2.1 3 (by decide)).2⟩

/-- C4: steps dispatch strictly in index order with no reordering or overlap
(the trace indices are exactly `i, i+1, …` in order); the fire times are
`stepFireTimes`, where each step's handler runs after waiting its own `delay`
from the completion of the previous step (fourth conjunct: the next fire time
is the previous fire time plus the previous step's per-character typing time
plus the next step's delay); hence step `k` fires no earlier than the start
time plus the cumulative sum of the delays of steps `0..k` (third
conjunct). -/
theorem c4_steps_in_order_after_cumulative_delays :
    ∀ (t i : Nat) (steps : List AnimationStep) (s : DbState),
      ((runAnimationLoop true t i steps s).2.2).map (fun e => e.index)
          = List.range' i steps.length ∧
      ((runAnimationLoop true t i steps s).2.2).map (fun e => e.time)
          = stepFireTimes t steps ∧
      (∀ k, k < steps.length →
        t + (((steps.take (k + 1)).map (fun st => st.delay)).sum)
          ≤ (stepFireTimes t steps).getD k 0) ∧
      (∀ k, k + 1 < steps.length →
        (stepFireTimes t steps).getD (k + 1) 0
          = (stepFireTimes t steps).getD k 0 + typingExtra (steps.getD k defaultStep)
            + (steps.getD (k + 1) defaultStep).delay) :=
  fun t i steps s =>
    ⟨runLoop_trace_indices steps t i s, runLoop_trace_times steps t i s,
     fun k hk => stepFireTimes_lower_bound steps t k hk,
     fun k hk => stepFireTimes_succ steps t k hk⟩

/-- Witness for C4, on the authored sequence. -/
theorem c4_steps_in_order_after_cumulative_delays_witness :
    0 + (((animationSequence.take 3).map (fun st => st.delay)).sum)
      ≤ (stepFireTimes 0 animationSequence).getD 2 0 ∧
    (stepFireTimes 0 animationSequence).getD 5 0
      = (stepFireTimes 0 animationSequence).getD 4 0
        + typingExtra (animationSequence.getD 4 defaultStep)
        + (animationSequence.getD 5 defaultStep).delay :=
  ⟨(c4_steps_in_order_after_cumulative_delays 0 0 animationSequence initialState).2.2.1
      2 (by decide),
   (c4_steps_in_order_after_cumulative_delays 0 0 animationSequence initialState).2.2.2
      4 (by decide)⟩

/-- C5: when playback runs uninterrupted to completion, every step dispatches
its handler exactly once (the trace has one entry per step), so the number of
handler dispatches for non-`wait` steps equals the number of non-`wait` steps
in the sequence. -/
theorem c5_nonwait_dispatch_count :
    ∀ (t i : Nat) (steps : List AnimationStep) (s : DbState),
      ((runAnimationLoop true t i steps s).2.2).length = steps.length ∧
      ((runAnimationLoop true t i steps s).2.2).countP (fun e => e.action != "wait")
        = steps.countP (fun st => st.action != "wait") :=
  fun t i steps s =>
    ⟨runLoop_trace_length steps t i s,
     runLoop_trace_countP (fun a => a != "wait") steps t i s⟩

/-- C6: a step whose `action` is none of the recognised kinds falls through
the `switch` with no matching case: it mutates nothing (first conjunct, the
dispatch is the identity on the visible state) and raises no error — the run
simply records the dispatch and continues with the next step from the same
state (second conjunct; `animationStep := i` is the loop's own bookkeeping
write, performed for every step before its delay). -/
theorem c6_unknown_action_is_noop (step : AnimationStep)
    (h : step.action ∉ knownActions) :
    (∀ s : DbState, executeAction s step = s) ∧
    (∀ (t i : Nat) (rest : List AnimationStep) (s : DbState),
      runAnimationLoop true t i (step :: rest) s
        = consTrace { time := t + step.delay, index := i, action := step.action }
            (runAnimationLoop true (t + step.delay) (i + 1) rest
              { s with animationStep := i })) := by
  have hexec : ∀ s : DbState, executeAction s step = s := executeAction_unknown step h
  have hnt : step.action ≠ "type" := by
    intro he
    exact h (by rw [he]; simp [knownActions])
  refine ⟨hexec, ?_⟩
  intro t i rest s
  simp [runAnimationLoop, typingExtra, hnt, hexec]

/-- Witness for C6: a step with the unrecognised action "frobnicate" leaves
the initial state untouched. -/
theorem c6_unknown_action_is_noop_witness :
    executeAction initialState { action := "frobnicate", delay := 100 } = initialState :=
  (c6_unknown_action_is_noop { action := "frobnicate", delay := 100 } (by decide)).1
    initialState

/-- C7: the loop block waits the fixed 2000 ms pause and then resets every
rendered piece of state (expanded nodes, selection, selected table, query
buffer, results, execution time, busy flag, click indicator, expanded row) to
its initial snapshot — `resetState s` equals `initialState` except for the
unrendered `animationStep` bookkeeping counter, which the restarted run
overwrites at index 0 before doing anything else — so replaying the sequence
from the reset state is identical to playing it from the initial state: every
loop iteration begins from the same visible state. -/
theorem c7_loop_reset_restores_initial_state :
    ∀ (s : DbState),
      resetState s = { initialState with animationStep := s.animationStep } ∧
      loopPauseMs = 2000 ∧
      runAnimationLoop true 0 0 animationSequence (resetState s)
        = runAnimationLoop true 0 0 animationSequence initialState :=
  fun _ => ⟨rfl, rfl, rfl⟩

/-- C8: cancellation is idempotent.  The cancellation signal is
`setIsAnimating(false)`; applying it twice yields exactly the state of
applying it once, it never touches the visible `DbState`, and it holds in any
state of execution (the host state is universally quantified, covering
cancellation during any delay wait). -/
theorem c8_cancel_idempotent :
    ∀ (h : HostState),
      cancelPlayback (cancelPlayback h) = cancelPlayback h ∧
      (cancelPlayback h).db = h.db ∧
      (cancelPlayback h).isAnimating = false :=
  fun _ => ⟨rfl, rfl, rfl⟩

/-- C9: in the terminal demo's state machine, every phase schedules at most
one timeout per effect run (first conjunct, for every phase — in particular
every reachable one), and since the effect cleanup clears the previous timer
before the next run schedules, the number of pending timers after any
sequence of effect runs stays at most one (second conjunct). -/
theorem c9_at_most_one_pending_timer :
    ∀ (jitter : Nat) (p : Phase) (ps : List Phase) (p0 : Nat), p0 ≤ 1 →
      (scheduledTimeouts jitter p).length ≤ 1 ∧ pendingAfterRuns jitter ps p0 ≤ 1 :=
  fun jitter p ps p0 h =>
    ⟨scheduledTimeouts_length_le_one jitter p, pendingAfterRuns_le_one jitter ps p0 h⟩

/-- Witness for C9, over one full command cycle of phases. -/
theorem c9_at_most_one_pending_timer_witness :
    (scheduledTimeouts 0 (Phase.typing 0 0)).length ≤ 1 ∧
    pendingAfterRuns 0
      [Phase.typing 0 0, Phase.typing 0 7, Phase.executing 0 0, Phase.executing 0 4,
       Phase.waiting 0, Phase.resetting] 0 ≤ 1 :=
  c9_at_most_one_pending_timer 0 (Phase.typing 0 0)
    [Phase.typing 0 0, Phase.typing 0 7, Phase.executing 0 0, Phase.executing 0 4,
     Phase.waiting 0, Phase.resetting] 0 (by decide)

/-- C10: a click step with coordinates shows the indicator at exactly those
coordinates, and the 600 ms auto-hide callback
(`setClickIndicator((prev) => ({ ...prev, visible: false }))`) changes only
the `visible` field to false, leaving `x` and `y` exactly as they were when
the indicator was shown. -/
theorem c10_autohide_changes_only_visible :
    ∀ (s : DbState) (tgt : Option String) (d : Nat) (x y : Int)
      (ind : ClickIndicator),
      (executeAction s
          { action := "click", target := tgt, delay := d,
            clickX := some x, clickY := some y }).clickIndicator
        = { x := x, y := y, visible := true } ∧
      (hideClickIndicator ind).x = ind.x ∧
      (hideClickIndicator ind).y = ind.y ∧
      (hideClickIndicator ind).visible = false ∧
      clickAutoHideDelayMs = 600 :=
  fun _ _ _ _ _ _ => ⟨rfl, rfl, rfl, rfl, rfl⟩
